import Mathlib

/-!
Verification of the PyPCAPKit schema-driven binary field engine.

Each definition below is a shallow embedding of a function of the repository,
translated from the Python sources under `pcapkit/`.  Machine integers are
modelled as `Nat`/`Int`, byte strings as `List Nat`, Python exceptions as an
explicit `Except` error channel, and Python's non-fatal `warn` channel as an
accumulated list of warning strings.  Definitions whose originating code is
not part of the examined sources are modelled from the specification and say
so in their doc comments.
-/

namespace PCAPKit

/-- Exception taxonomy of `pcapkit/utilities/exceptions.py` as used by the
field engine and the protocol layer, plus an end-of-stream marker for reads
past the end of a buffer. -/
inductive PKError where
  | fieldValueError (msg : String)
  | noDefaultValue (msg : String)
  | protocolError (msg : String)
  | valueError (msg : String)
  | endOfStream
  deriving DecidableEq, Repr

/-! ## Open enumeration: `pcapkit/const/mh/status_code.py` -/

/-- Enum registration state: the value-to-member-name map of an `aenum`
`IntEnum` class.  `extend_enum` appends a new member to this map. -/
abbrev EnumMembers := List (Int × String)

/-- Statically declared members of `StatusCode`
(`pcapkit/const/mh/status_code.py`, class body). -/
def statusCodeMembers : EnumMembers :=
  [(0, "DNS_update_performed"),
   (128, "Reason_unspecified"),
   (129, "Administratively_prohibited"),
   (130, "DNS_Update_Failed")]

/-- Model of `aenum.extend_enum cls name value`: registers a new member under
`value` and returns it. -/
def extendEnum (members : EnumMembers) (name : String) (value : Int) :
    String × EnumMembers :=
  (name, members ++ [(value, name)])

/-- `StatusCode._missing_` (`pcapkit/const/mh/status_code.py` lines 49-67):
called when `value` has no registered member.  Rejects non-8-bit values with
`ValueError`; otherwise registers and returns a synthetic
`Unassigned_<N>` member (the three range branches of the source all build the
same member; the trailing `return super()._missing_(value)` is unreachable). -/
def statusCodeMissing (members : EnumMembers) (value : Int) :
    Except PKError (String × EnumMembers) :=
  if ¬ (0 ≤ value ∧ value ≤ 255) then
    .error (.valueError (toString value ++ " is not a valid StatusCode"))
  else if 1 ≤ value ∧ value ≤ 127 then
    .ok (extendEnum members ("Unassigned_" ++ toString value) value)
  else if 131 ≤ value ∧ value ≤ 255 then
    .ok (extendEnum members ("Unassigned_" ++ toString value) value)
  else
    .ok (extendEnum members ("Unassigned_" ++ toString value) value)

/-- Model of calling `StatusCode(value)`: enum value lookup resolves through
the registered member map first and falls back to `_missing_` on a miss
(`aenum` call semantics for an `IntEnum`). -/
def statusCodeLookup (members : EnumMembers) (value : Int) :
    Except PKError (String × EnumMembers) :=
  match members.find? (fun m => m.1 = value) with
  | some m => .ok (m.2, members)
  | none => statusCodeMissing members value

/-! ## Mobility Header length offsets: `pcapkit/protocols/internet/mh.py` -/

/-- The header-length value stored by `MH.make`
(`pcapkit/protocols/internet/mh.py` line 351):
`length=math.ceil((len(data) + 6) / 8) - 1`. -/
def mhMakeLength (dataLen : Nat) : Nat :=
  (dataLen + 6 + 7) / 8 - 1

/-- The semantic header length reported by `MH.read`
(`pcapkit/protocols/internet/mh.py` line 312):
`length=(schema.length + 1) * 8`. -/
def mhReadLength (stored : Nat) : Nat :=
  (stored + 1) * 8

/-! ## Mobility Header padding options: `pcapkit/protocols/internet/mh.py` -/

/-- Option type value of the ``Pad1`` MH option (RFC 6275). -/
def mhOptPad1 : Nat := 0

/-- Option type value of the ``PadN`` MH option (RFC 6275). -/
def mhOptPadN : Nat := 1

/-- Parsed data record of an MH padding option
(`pcapkit/protocols/data/...`, `Data_PadOption`): option type and semantic
size. -/
structure PadOption where
  type : Nat
  length : Nat
  deriving DecidableEq, Repr

/-- Constructed schema of an MH padding option (`Schema_PadOption`): the
on-wire type and length fields. -/
structure PadOptionSchema where
  type : Nat
  length : Nat
  deriving DecidableEq, Repr

/-- `MH._read_opt_pad` (`pcapkit/protocols/internet/mh.py` lines 486-538):
reading a padding option whose type/length combination is invalid raises
`ProtocolError`; a valid `Pad1` yields size 1, a valid `PadN` yields size
`length + 2`. -/
def mhReadOptPad (code clen : Nat) : Except PKError PadOption :=
  if code ≠ mhOptPad1 ∧ code ≠ mhOptPadN then
    .error (.protocolError ("MH: [OptNo " ++ toString code ++ "] invalid format"))
  else if code = mhOptPad1 ∧ clen ≠ 0 then
    .error (.protocolError ("MH: [OptNo " ++ toString code ++ "] invalid format"))
  else if code = mhOptPadN ∧ clen = 0 then
    .error (.protocolError ("MH: [OptNo " ++ toString code ++ "] invalid format"))
  else
    .ok { type := code, length := if code = mhOptPad1 then 1 else clen + 2 }

/-- `MH._make_opt_pad` (`pcapkit/protocols/internet/mh.py` lines 1143-1173):
constructing a padding option with the wrong variant for its length emits a
`ProtocolWarning` and switches the variant (`Pad1` with nonzero length becomes
`PadN`, then `PadN` with zero length becomes `Pad1`); the schema is built from
the possibly-switched type.  Returns the schema together with the emitted
warnings. -/
def mhMakeOptPad (ty len : Nat) : PadOptionSchema × List String :=
  let s1 : Nat × List String :=
    if ty = mhOptPad1 ∧ len ≠ 0 then
      (mhOptPadN, ["MH: [OptNo " ++ toString ty ++ "] invalid format"])
    else (ty, [])
  let s2 : Nat × List String :=
    if s1.1 = mhOptPadN ∧ len = 0 then
      (mhOptPad1, s1.2 ++ ["MH: [OptNo " ++ toString s1.1 ++ "] invalid format"])
    else s1
  ({ type := s2.1, length := len }, s2.2)

/-! ## ConditionalField: `pcapkit/corekit/fields/misc.py` lines 33-176 -/

/-- Shallow model of an atomic field (`pcapkit/corekit/fields/field.py`,
abstracted): a byte length, a default value (`none` models the `NoValue`
sentinel), and pack/unpack functions over a packet context of type `π`. -/
structure EField (π α : Type) where
  length : Nat
  default : Option α
  pack : Option α → π → Except PKError (List Nat)
  unpack : List Nat → π → Option α

/-- `ConditionalField` (`pcapkit/corekit/fields/misc.py`): a wrapped field
plus a condition predicate over the packet context. -/
structure CondField (π α : Type) where
  field : EField π α
  condition : π → Bool

/-- `ConditionalField.pack` (`pcapkit/corekit/fields/misc.py` lines 123-136):
returns `b''` when the condition is false, otherwise delegates to the wrapped
field. -/
def CondField.packF (f : CondField π α) (value : Option α) (packet : π) :
    Except PKError (List Nat) :=
  if ¬ f.condition packet then .ok []
  else f.field.pack value packet

/-- `ConditionalField.unpack` (`pcapkit/corekit/fields/misc.py` lines
151-164): returns the wrapped field's default (possibly the `NoValue`
sentinel) when the condition is false without touching the buffer, otherwise
delegates to the wrapped field. -/
def CondField.unpackF (f : CondField π α) (buffer : List Nat) (packet : π) :
    Option α :=
  if ¬ f.condition packet then f.field.default
  else f.field.unpack buffer packet

/-! ## PayloadField and ListField packing: `pcapkit/corekit/fields/misc.py` -/

/-- Value accepted by `PayloadField.pack`: raw bytes, a `Schema` (packed via
`.pack()`), or a `Protocol` object (its `.data` bytes are used). -/
inductive PayloadVal where
  | raw (b : List Nat)
  | schema (packed : List Nat)
  | proto (data : List Nat)
  deriving DecidableEq, Repr

/-- Byte conversion applied by `PayloadField.pack` after the value has been
resolved (`pcapkit/corekit/fields/misc.py` lines 276-282). -/
def PayloadVal.bytes : PayloadVal → List Nat
  | .raw b => b
  | .schema packed => packed
  | .proto data => data

/-- `PayloadField.pack` (`pcapkit/corekit/fields/misc.py` lines 260-282):
with no value supplied (`None`) and the default being the `NoValue` sentinel
it raises `NoDefaultValue`; otherwise the default is substituted and the
value converted to bytes. -/
def payloadFieldPack (name : String) (defaultVal : Option PayloadVal)
    (value : Option PayloadVal) : Except PKError (List Nat) :=
  match value with
  | none =>
    match defaultVal with
    | none => .error (.noDefaultValue ("Field " ++ name ++ " has no default value."))
    | some d => .ok d.bytes
  | some v => .ok v.bytes

/-- Item of a `ListField` value: raw bytes, a `Schema` (packed via
`.pack()`), or any other value, which is handed to the item field's `pack`
when an item type was declared (`pcapkit/corekit/fields/misc.py` lines
374-383). -/
inductive ListItem where
  | raw (b : List Nat)
  | schema (packed : List Nat)
  | other (v : Nat)
  deriving DecidableEq, Repr

/-- Item loop of `ListField.pack` (`pcapkit/corekit/fields/misc.py` lines
374-384): bytes and schemas are serialized directly, any other item goes
through the declared item field, and with no item field declared the pack
fails with `FieldValueError`. -/
def listFieldPackItems (name : String) (itemType : Option (Nat → List Nat)) :
    List ListItem → Except PKError (List Nat)
  | [] => .ok []
  | item :: rest =>
    match item with
    | .raw b =>
      (listFieldPackItems name itemType rest).map (fun tl => b ++ tl)
    | .schema packed =>
      (listFieldPackItems name itemType rest).map (fun tl => packed ++ tl)
    | .other v =>
      match itemType with
      | some f => (listFieldPackItems name itemType rest).map (fun tl => f v ++ tl)
      | none => .error (.fieldValueError ("Field " ++ name ++ " has invalid value."))

/-- `ListField.pack` (`pcapkit/corekit/fields/misc.py` lines 357-384): a
missing value (`None`) packs to the empty byte string `b''` — there is no
default lookup and no `NoDefaultValue` — and otherwise the items are packed
and concatenated. -/
def listFieldPack (name : String) (itemType : Option (Nat → List Nat))
    (value : Option (List ListItem)) : Except PKError (List Nat) :=
  match value with
  | none => .ok []
  | some items => listFieldPackItems name itemType items

/-! ## ListField and OptionField unpacking: `pcapkit/corekit/fields/misc.py` -/

/-- `ListField.unpack` with a declared item type
(`pcapkit/corekit/fields/misc.py` lines 397-414): the loop
`while length: length -= field.length; if length < 0: raise; read; append`
reads fixed-size chunks until the byte budget `length` hits zero, raising
`FieldValueError` as soon as the next item would overshoot the remaining
budget (before reading it).  Item decoding is abstracted to returning the raw
chunk.  `fuel` bounds the Python `while` loop; `none` models divergence. -/
def listFieldUnpack (itemLen : Nat) :
    Nat → Nat → List Nat → Option (Except PKError (List (List Nat)))
  | 0, _, _ => none
  | _ + 1, 0, _ => some (.ok [])
  | fuel + 1, length + 1, file =>
    if length + 1 < itemLen then
      some (.error (.fieldValueError "Field <list> has invalid length."))
    else
      match listFieldUnpack itemLen fuel (length + 1 - itemLen) (file.drop itemLen) with
      | none => none
      | some (.error e) => some (.error e)
      | some (.ok rest) => some (.ok (file.take itemLen :: rest))

/-- One type-tagged item of an option list as seen by `OptionField.unpack`: a
type code and the total wire size of the item (`len(data)` of the unpacked
concrete schema). -/
structure OptItem where
  code : Nat
  size : Nat
  deriving DecidableEq, Repr

/-- `OptionField.unpack` (`pcapkit/corekit/fields/misc.py` lines 472-505):
the loop `while length:` peeks the base schema, dispatches through the
registry, rewinds, unpacks the concrete schema and subtracts its size —
with no check that the subtraction stays non-negative, so the loop keeps
running on a negative remaining budget.  The peek/dispatch/rewind/unpack of
one item is modelled from the spec (section 4.2) as consuming the item's
entire wire size from the stream; `Schema.unpack` against an exhausted
stream (`pcapkit/protocols/schema/schema.py`, not among the examined
sources) is modelled from the spec as failing, recorded as `endOfStream`.
Returns the outcome together with the total bytes consumed; `none` models
divergence of the `while` loop. -/
def optionFieldUnpack :
    Nat → Int → List OptItem → Nat → Option (Except PKError (List OptItem) × Nat)
  | 0, _, _, _ => none
  | fuel + 1, length, file, consumed =>
    if length = 0 then some (.ok [], consumed)
    else
      match file with
      | [] => some (.error .endOfStream, consumed)
      | item :: rest =>
        match optionFieldUnpack fuel (length - item.size) rest (consumed + item.size) with
        | none => none
        | some (res, c) => some (res.map (fun tl => item :: tl), c)

/-! ## PCAP-NG blocks: `pcapkit/protocols/schema/misc/pcapng.py` -/

/-- Field values of an `UnknownBlock` schema instance
(`pcapkit/protocols/schema/misc/pcapng.py` lines 322-333): leading block
total length, body bytes, trailing block total length. -/
structure UnknownBlock where
  length : Nat
  body : List Nat
  length2 : Nat
  deriving DecidableEq, Repr

/-- `BlockType.post_process` (`pcapkit/protocols/schema/misc/pcapng.py` lines
296-319): raises `ProtocolError` reporting both block total lengths when they
disagree, otherwise returns the schema unchanged. -/
def blockTypePostProcess (s : UnknownBlock) : Except PKError UnknownBlock :=
  if s.length ≠ s.length2 then
    .error (.protocolError
      ("block length mismatch: " ++ toString s.length ++ " != " ++ toString s.length2))
  else .ok s

/-- Modelled from the spec: `Schema.unpack`
(`pcapkit/protocols/schema/schema.py`, not among the examined sources) binds
the declared fields in order and then invokes the schema's `post_process`
hook (section 4.3).  For an `UnknownBlock` the bound fields are the leading
length, the body, and the trailing length. -/
def unknownBlockUnpack (length : Nat) (body : List Nat) (length2 : Nat) :
    Except PKError UnknownBlock :=
  blockTypePostProcess { length := length, body := body, length2 := length2 }

/-! ## HIP ENCRYPTED parameter: `pcapkit/protocols/schema/internet/hip.py` -/

/-- Parameter type value of `HIP_CIPHER` (RFC 7401). -/
def hipCipherTag : Nat := 579

/-- Parameter type value of `ENCRYPTED` (RFC 7401). -/
def hipEncryptedTag : Nat := 641

/-- One previously-parsed HIP parameter as seen by
`EncryptedParameter.pre_unpack`: its type tag and, for `HIP_CIPHER`
parameters, the parsed `cipher_id` list. -/
structure HipOption where
  tag : Nat
  cipherIds : List Nat
  deriving DecidableEq, Repr

/-- `EncryptedParameter.pre_unpack`
(`pcapkit/protocols/schema/internet/hip.py` lines 453-490) for a packet whose
context carries an `options` list: `cipher_list` collects the `HIP_CIPHER`
parameters; `if cipher_list:` (non-empty) warns about a *missing*
`HIP_CIPHER` parameter and selects the sentinel `0xffff`; otherwise the
cipher IDs of the (empty) `cipher_list` are concatenated and compared with
the number of `ENCRYPTED` parameters already parsed, selecting `0xfffe` with
a too-many-ENCRYPTED warning when the index is out of range and
`cipher_ids[encrypted_index]` otherwise.  Returns the `__cipher__` value and
the emitted warnings. -/
def encryptedPreUnpack (options : List HipOption) : Nat × List String :=
  let cipherList := options.filter (fun o => o.tag = hipCipherTag)
  if cipherList ≠ [] then
    (0xffff, ["HIP: [ParamNo 641] missing HIP_CIPHER parameter"])
  else
    let cipherIds := (cipherList.map (fun o => o.cipherIds)).flatten
    let encryptedIndex := (options.filter (fun o => o.tag = hipEncryptedTag)).length
    if cipherIds.length ≤ encryptedIndex then
      (0xfffe, ["HIP: [ParamNo 641] too many ENCRYPTED parameters"])
    else
      (cipherIds.getD encryptedIndex 0, [])

/-! ## PCAP-NG name resolution: `pcapkit/protocols/schema/misc/pcapng.py` -/

/-- Python `str.split(sep)` with a one-character separator, as used by
`IPv4Record.post_process` (`self.resol.split(chr(0))`): splits at every
separator occurrence, keeping empty pieces — in particular a trailing
separator yields a trailing empty piece. -/
def splitNul : List Char → List (List Char)
  | [] => [[]]
  | c :: rest =>
    if c = Char.ofNat 0 then [] :: splitNul rest
    else
      match splitNul rest with
      | [] => [[c]]
      | piece :: pieces => (c :: piece) :: pieces

/-- `IPv4Record.post_process` (`pcapkit/protocols/schema/misc/pcapng.py`
lines 981-992): `self.names = self.resol.split(chr(0))`.  Modelled from the
spec for the `resol` value itself: `StringField`
(`pcapkit/corekit/fields/strings.py`, not among the examined sources) decodes
exactly the declared `length - 4` bytes as text (section 4.1,
length-terminated text), so `resol` keeps any trailing NUL byte. -/
def ipv4RecordNames (resol : String) : List String :=
  (splitNul resol.toList).map List.asString

/-- One record of a Name Resolution Block after record-level post-processing,
as consumed by `NameResolutionBlock.post_process`: address records carry
their IP and derived name list, any other record participates in no
mapping. -/
inductive NRRecord where
  | ipv4 (ip : String) (names : List String)
  | ipv6 (ip : String) (names : List String)
  | other
  deriving DecidableEq, Repr

/-- `NameResolutionBlock.post_process`
(`pcapkit/protocols/schema/misc/pcapng.py` lines 1119-1140): walks the
records and, for every IPv4/IPv6 record and every name in its `names` list,
adds `(ip, name)` to the forward mapping and `(name, ip)` to the reverse
mapping (`MultiDict.add` appends, duplicates included). -/
def nrbPostProcess (records : List NRRecord) :
    List (String × String) × List (String × String) :=
  records.foldl
    (fun acc r =>
      match r with
      | .ipv4 ip names =>
        (acc.1 ++ names.map (fun n => (ip, n)), acc.2 ++ names.map (fun n => (n, ip)))
      | .ipv6 ip names =>
        (acc.1 ++ names.map (fun n => (ip, n)), acc.2 ++ names.map (fun n => (n, ip)))
      | .other => acc)
    ([], [])

/-- Field values of a `NameResolutionBlock` schema instance
(`pcapkit/protocols/schema/misc/pcapng.py` lines 1081-1117): leading block
total length, name-resolution records, options (opaque here), trailing block
total length. -/
structure NRBlock where
  length : Nat
  records : List NRRecord
  options : List OptItem
  length2 : Nat
  deriving DecidableEq, Repr

/-- Modelled from the spec: `Schema.unpack`
(`pcapkit/protocols/schema/schema.py`, not among the examined sources) binds
the declared fields in order and then invokes the schema's own
`post_process` hook (section 4.3).  For a `NameResolutionBlock` that hook is
its override (`pcapkit/protocols/schema/misc/pcapng.py` lines 1119-1140),
which builds the forward/reverse name mappings and returns the schema — it
does not invoke `BlockType.post_process`, performs no comparison of
`length` and `length2`, and raises nothing. -/
def nameResolutionBlockUnpack (length : Nat) (records : List NRRecord)
    (options : List OptItem) (length2 : Nat) :
    Except PKError (NRBlock × (List (String × String) × List (String × String))) :=
  .ok ({ length := length, records := records, options := options, length2 := length2 },
       nrbPostProcess records)

/-- Sample wrapped field used to evaluate the conditional-field theorems on a
concrete input: length 2, default value 7, constant pack/unpack functions. -/
def sampleField : EField Unit Nat where
  length := 2
  default := some 7
  pack := fun _ _ => .ok [1, 2]
  unpack := fun _ _ => some 5

/-- Sample conditional field whose condition is always false. -/
def sampleCondFalse : CondField Unit Nat where
  field := sampleField
  condition := fun _ => false

/-- Sample conditional field whose condition is always true. -/
def sampleCondTrue : CondField Unit Nat where
  field := sampleField
  condition := fun _ => true

/-! ## Theorems -/

/-- C7: `MH.read` and `MH.make` apply the identical length-offset encoding in
both directions — `make` stores `ceil((len(data) + 6) / 8) - 1` and `read`
reports `(stored + 1) * 8` — so for every message-data byte string whose size
plus the 6-byte fixed header is a multiple of 8, reading a packet constructed
by `make` yields a length equal to `len(data) + 6`. -/
theorem mh_length_roundtrip (dataLen : Nat) (h : (dataLen + 6) % 8 = 0) :
    mhReadLength (mhMakeLength dataLen) = dataLen + 6 := by
  unfold mhReadLength mhMakeLength
  omega

/-- Witness for the MH length round trip at a 2-byte message body. -/
theorem mh_length_roundtrip_witness :
    (2 + 6) % 8 = 0 ∧ mhReadLength (mhMakeLength 2) = 2 + 6 :=
  ⟨by decide, mh_length_roundtrip 2 (by decide)⟩

/-- C2 counterexample: a Name Resolution Block with leading length 20 and
corrupted trailing length 24 unpacks successfully — its `post_process`
override never compares the two lengths, so no `ProtocolError` is raised for
this PCAP-NG block, falsifying the claim's quantification over every
block. -/
theorem nrb_mismatched_lengths_cex :
    nameResolutionBlockUnpack 20 [] [] 24 =
      .ok ({ length := 20, records := [], options := [], length2 := 24 }, ([], [])) ∧
    (20 : Nat) ≠ 24 :=
  ⟨rfl, by decide⟩

/-- C2 (amended): a PCAP-NG block whose schema reaches the base
`BlockType.post_process` (e.g. `UnknownBlock`) raises `ProtocolError`
reporting both length values whenever its leading and trailing
block-total-length fields differ; but the guarantee is not universal —
`NameResolutionBlock` (like `SystemdJournalExportBlock`) overrides
`post_process` without invoking the base check, so it accepts every
leading/trailing combination, mismatched ones included, without error. -/
theorem pcapng_sandwich_scoped :
    (∀ (l l2 : Nat) (body : List Nat), l ≠ l2 →
      unknownBlockUnpack l body l2 =
        .error (.protocolError
          ("block length mismatch: " ++ toString l ++ " != " ++ toString l2)) ∧
      ∃ pre mid post,
        "block length mismatch: " ++ toString l ++ " != " ++ toString l2 =
          pre ++ toString l ++ mid ++ toString l2 ++ post) ∧
    (∀ (l l2 : Nat) (records : List NRRecord) (options : List OptItem),
      nameResolutionBlockUnpack l records options l2 =
        .ok ({ length := l, records := records, options := options, length2 := l2 },
             nrbPostProcess records)) := by
  refine ⟨fun l l2 body h => ?_, fun l l2 records options => rfl⟩
  refine ⟨by simp [unknownBlockUnpack, blockTypePostProcess, h], ?_⟩
  exact ⟨"block length mismatch: ", " != ", "", by simp⟩

/-- Witness for the scoped sandwich-length behavior: an `UnknownBlock` with
lengths 20/24 raises with both values in the message, while a
`NameResolutionBlock` with the same mismatched lengths unpacks its record
into the mappings without error. -/
theorem pcapng_sandwich_scoped_witness :
    (20 ≠ 24) ∧
    unknownBlockUnpack 20 [0, 0, 0, 0, 0, 0, 0, 0] 24 =
      .error (.protocolError "block length mismatch: 20 != 24") ∧
    nameResolutionBlockUnpack 20 [.ipv4 "192.0.2.1" ["host.example"]] [] 24 =
      .ok ({ length := 20, records := [.ipv4 "192.0.2.1" ["host.example"]],
             options := [], length2 := 24 },
           ([("192.0.2.1", "host.example")], [("host.example", "192.0.2.1")])) := by
  refine ⟨by decide, (pcapng_sandwich_scoped.1 20 24 [0, 0, 0, 0, 0, 0, 0, 0] (by decide)).1, ?_⟩
  exact pcapng_sandwich_scoped.2 20 24 [.ipv4 "192.0.2.1" ["host.example"]] []

/-- C3: the condition of `EncryptedParameter.pre_unpack` is inverted.  With a
`HIP_CIPHER` parameter present (cipher ID 2) the code warns about a *missing*
`HIP_CIPHER` parameter and selects the sentinel `0xffff` instead of the
declared cipher ID; with no `HIP_CIPHER` parameter at all it selects `0xfffe`
with a too-many-ENCRYPTED warning instead of `0xffff`; and on every input the
selected cipher is one of the two sentinels — the branch that indexes into
the declared cipher-ID list is unreachable. -/
theorem hip_encrypted_cipher_inverted :
    encryptedPreUnpack [⟨hipCipherTag, [2]⟩] =
      (0xffff, ["HIP: [ParamNo 641] missing HIP_CIPHER parameter"]) ∧
    encryptedPreUnpack [] =
      (0xfffe, ["HIP: [ParamNo 641] too many ENCRYPTED parameters"]) ∧
    ∀ options : List HipOption,
      (encryptedPreUnpack options).1 = 0xffff ∨
      (encryptedPreUnpack options).1 = 0xfffe := by
  refine ⟨by decide, by decide, ?_⟩
  intro options
  unfold encryptedPreUnpack
  by_cases h : options.filter (fun o => o.tag = hipCipherTag) = []
  · simp [h]
  · simp [h]

/-- C4 counterexample: a Mobility Header `Pad1` option read with nonzero
length 1 is rejected with `ProtocolError`, not accepted with a warning. -/
theorem mh_pad1_nonzero_read_cex :
    mhReadOptPad mhOptPad1 1 =
      .error (.protocolError "MH: [OptNo 0] invalid format") := rfl

/-- C4 (amended): the Pad1/PadN variant auto-correction exists only in the
construction direction — `MH._make_opt_pad` downgrades a `Pad1` with nonzero
length to `PadN` (and a `PadN` with zero length to `Pad1`) with a non-fatal
warning, while `MH._read_opt_pad` rejects both malformed combinations with a
`ProtocolError`. -/
theorem mh_pad_variant_switch (len : Nat) (h : len ≠ 0) :
    (mhReadOptPad mhOptPad1 len =
        .error (.protocolError "MH: [OptNo 0] invalid format") ∧
      mhMakeOptPad mhOptPad1 len =
        ({ type := mhOptPadN, length := len }, ["MH: [OptNo 0] invalid format"])) ∧
    (mhReadOptPad mhOptPadN 0 =
        .error (.protocolError "MH: [OptNo 1] invalid format") ∧
      mhMakeOptPad mhOptPadN 0 =
        ({ type := mhOptPad1, length := 0 }, ["MH: [OptNo 1] invalid format"])) := by
  refine ⟨⟨?_, ?_⟩, rfl, rfl⟩
  · simp [mhReadOptPad, mhOptPad1, mhOptPadN, h]
    rfl
  · simp [mhMakeOptPad, mhOptPad1, mhOptPadN, h]
    rfl

/-- Witness for the padding variant switch at length 7. -/
theorem mh_pad_variant_switch_witness :
    (7 ≠ 0) ∧
    mhReadOptPad mhOptPad1 7 =
      .error (.protocolError "MH: [OptNo 0] invalid format") ∧
    mhMakeOptPad mhOptPad1 7 =
      ({ type := mhOptPadN, length := 7 }, ["MH: [OptNo 0] invalid format"]) :=
  ⟨by decide, (mh_pad_variant_switch 7 (by decide)).1.1, (mh_pad_variant_switch 7 (by decide)).1.2⟩

/-- C5 counterexample: post-processing the IPv4 name-resolution record whose
resolution data is the single NUL-terminated string `host.example` yields a
trailing empty entry, not the single-entry list the claim states. -/
theorem nrb_ipv4_names_cex :
    ipv4RecordNames "host.example\x00" = ["host.example", ""] ∧
    (["host.example", ""] : List String) ≠ ["host.example"] := by
  exact ⟨rfl, by decide⟩

/-- C5 (amended): for the scenario record `ip = 192.0.2.1`,
`resol = "host.example\x00"`, record post-processing yields
`names == ["host.example", ""]` (Python `str.split` keeps the empty piece
after the trailing NUL), and the Name Resolution Block post-processing
populates the forward and reverse mappings with the claimed pair — alongside
a spurious empty-name pair in each direction. -/
theorem nrb_ipv4_scenario :
    ipv4RecordNames "host.example\x00" = ["host.example", ""] ∧
    nrbPostProcess [.ipv4 "192.0.2.1" (ipv4RecordNames "host.example\x00")] =
      ([("192.0.2.1", "host.example"), ("192.0.2.1", "")],
       [("host.example", "192.0.2.1"), ("", "192.0.2.1")]) ∧
    ("192.0.2.1", "host.example") ∈
      (nrbPostProcess [.ipv4 "192.0.2.1" (ipv4RecordNames "host.example\x00")]).1 ∧
    ("host.example", "192.0.2.1") ∈
      (nrbPostProcess [.ipv4 "192.0.2.1" (ipv4RecordNames "host.example\x00")]).2 := by
  refine ⟨rfl, rfl, ?_, ?_⟩ <;> decide

/-- Helper: for any 8-bit value, all three range branches of
`StatusCode._missing_` register and return the same synthetic member. -/
theorem statusCodeMissing_in_range (members : EnumMembers) (v : Int)
    (h0 : 0 ≤ v) (h1 : v ≤ 255) :
    statusCodeMissing members v =
      .ok (extendEnum members ("Unassigned_" ++ toString v) v) := by
  unfold statusCodeMissing
  rw [if_neg (not_not_intro ⟨h0, h1⟩)]
  split_ifs <;> rfl

/-- C6 counterexample: looking up the unregistered integer 256 in the MH
`StatusCode` enum raises `ValueError` instead of returning a synthetic
member, so the claim does not hold for *every* unregistered integer. -/
theorem statusCode_256_cex :
    statusCodeLookup statusCodeMembers 256 =
      .error (.valueError "256 is not a valid StatusCode") := rfl

/-- C6 (amended): for every unregistered integer in the 8-bit range 0..255,
looking it up in the MH `StatusCode` enum returns a synthetic
`Unassigned_<N>` member without raising, and a second lookup of the same
integer returns the same member from the same registration state
(registration is idempotent). -/
theorem statusCode_unassigned_idempotent (v : Int) (h0 : 0 ≤ v) (h1 : v ≤ 255)
    (hun : ∀ p ∈ statusCodeMembers, p.1 ≠ v) :
    ∃ s2, statusCodeLookup statusCodeMembers v =
        .ok ("Unassigned_" ++ toString v, s2) ∧
      statusCodeLookup s2 v = .ok ("Unassigned_" ++ toString v, s2) := by
  have hfind : statusCodeMembers.find? (fun m => m.1 = v) = none := by
    rw [List.find?_eq_none]
    intro p hp
    simpa using hun p hp
  refine ⟨statusCodeMembers ++ [(v, "Unassigned_" ++ toString v)], ?_, ?_⟩
  · unfold statusCodeLookup
    rw [hfind, statusCodeMissing_in_range _ _ h0 h1]
    rfl
  · unfold statusCodeLookup
    have h2 : (statusCodeMembers ++ [(v, "Unassigned_" ++ toString v)]).find?
        (fun m => m.1 = v) = some (v, "Unassigned_" ++ toString v) := by
      rw [List.find?_append, hfind]
      simp
    rw [h2]

/-- Witness for the idempotent open-enum extension at the unregistered
value 200. -/
theorem statusCode_unassigned_idempotent_witness :
    (0 : Int) ≤ 200 ∧ (200 : Int) ≤ 255 ∧
    (∀ p ∈ statusCodeMembers, p.1 ≠ 200) ∧
    ∃ s2, statusCodeLookup statusCodeMembers 200 = .ok ("Unassigned_200", s2) ∧
      statusCodeLookup s2 200 = .ok ("Unassigned_200", s2) :=
  ⟨by decide, by decide, by decide,
   statusCode_unassigned_idempotent 200 (by decide) (by decide) (by decide)⟩

/-- C10: looking up an integer outside the range 0..255 in the MH
`StatusCode` enum raises `ValueError` instead of creating a synthetic
`Unassigned` member — the open-enumeration fallback applies only to in-range
8-bit values. -/
theorem statusCode_out_of_range_valueError (v : Int) (h : v < 0 ∨ 255 < v) :
    statusCodeLookup statusCodeMembers v =
      .error (.valueError (toString v ++ " is not a valid StatusCode")) := by
  have hfind : statusCodeMembers.find? (fun m => m.1 = v) = none := by
    rw [List.find?_eq_none]
    intro p hp
    fin_cases hp <;> simp <;> omega
  unfold statusCodeLookup
  rw [hfind]
  unfold statusCodeMissing
  rw [if_pos (by omega)]

/-- Witness for the out-of-range `ValueError` at value 300. -/
theorem statusCode_out_of_range_valueError_witness :
    ((300 : Int) < 0 ∨ (255 : Int) < 300) ∧
    statusCodeLookup statusCodeMembers 300 =
      .error (.valueError "300 is not a valid StatusCode") :=
  ⟨by decide, statusCode_out_of_range_valueError 300 (by decide)⟩

/-- C8: when the condition predicate is false, `ConditionalField.pack`
produces the empty byte string and `ConditionalField.unpack` returns the
wrapped field's default without looking at the buffer (the result is the same
for every buffer, so no bytes are consumed); when the predicate is true, both
delegate unchanged to the wrapped field. -/
theorem conditionalField_short_circuit (π α : Type) (f : CondField π α)
    (value : Option α) (packet : π) (buffer : List Nat) :
    (f.condition packet = false →
      f.packF value packet = .ok [] ∧
      f.unpackF buffer packet = f.field.default ∧
      ∀ buffer2, f.unpackF buffer2 packet = f.unpackF buffer packet)
    ∧ (f.condition packet = true →
      f.packF value packet = f.field.pack value packet ∧
      f.unpackF buffer packet = f.field.unpack buffer packet) := by
  constructor <;> intro h <;> simp [CondField.packF, CondField.unpackF, h]

/-- Witness for the conditional-field short circuit on the sample fields,
covering both predicate outcomes. -/
theorem conditionalField_short_circuit_witness :
    (sampleCondFalse.condition () = false ∧
      sampleCondFalse.packF (some 3) () = .ok [] ∧
      sampleCondFalse.unpackF [9, 9] () = some 7) ∧
    (sampleCondTrue.condition () = true ∧
      sampleCondTrue.packF (some 3) () = .ok [1, 2] ∧
      sampleCondTrue.unpackF [9, 9] () = some 5) := by
  have hf := (conditionalField_short_circuit Unit Nat sampleCondFalse (some 3) () [9, 9]).1 rfl
  have ht := (conditionalField_short_circuit Unit Nat sampleCondTrue (some 3) () [9, 9]).2 rfl
  exact ⟨⟨rfl, hf.1, hf.2.1⟩, ⟨rfl, ht.1, ht.2⟩⟩

/-- C9 counterexample: `ListField.pack` invoked with no value (and no default
anywhere in sight) silently returns the empty byte string instead of raising
`NoDefaultValue`. -/
theorem listField_pack_none_cex :
    listFieldPack "<list>" none none = .ok [] ∧
    (Except.ok [] : Except PKError (List Nat)) ≠
      .error (.noDefaultValue "Field <list> has no default value.") :=
  ⟨rfl, by simp⟩

/-- C9 (amended): `PayloadField.pack` surfaces a missing value with no
default as `NoDefaultValue`, but `ListField.pack` replaces a missing value
with the empty byte string without raising — the always-surfaced guarantee
holds for the payload field only. -/
theorem missing_value_pack_behavior :
    (∀ name, payloadFieldPack name none none =
      .error (.noDefaultValue ("Field " ++ name ++ " has no default value."))) ∧
    (∀ name itemType, listFieldPack name itemType none = .ok []) :=
  ⟨fun _ => rfl, fun _ _ => rfl⟩

/-- Helper: `ListField.unpack` on a budget that is a multiple of the item
length returns the consecutive item chunks, consuming exactly the budget. -/
theorem listFieldUnpack_dvd (k : Nat) (hk : 0 < k) :
    ∀ fuel b file, b < fuel → k ∣ b →
      ∃ chunks, listFieldUnpack k fuel b file = some (.ok chunks) ∧
        chunks.flatten = file.take b := by
  intro fuel
  induction fuel with
  | zero => intro b file hb _; exact absurd hb (by omega)
  | succ f ih =>
    intro b file hb hdvd
    match b with
    | 0 => exact ⟨[], rfl, rfl⟩
    | b' + 1 =>
      have hk_le : k ≤ b' + 1 := Nat.le_of_dvd (Nat.succ_pos b') hdvd
      have hdvd2 : k ∣ (b' + 1 - k) := (Nat.dvd_sub' hdvd dvd_rfl)
      obtain ⟨chunks, hc, hf⟩ := ih (b' + 1 - k) (file.drop k) (by omega) hdvd2
      refine ⟨file.take k :: chunks, ?_, ?_⟩
      · simp only [listFieldUnpack]
        rw [if_neg (by omega), hc]
      · have hsplit : b' + 1 = k + (b' + 1 - k) := by omega
        rw [List.flatten_cons, hf, ← List.take_add, ← hsplit]

/-- Helper: `ListField.unpack` on a budget that is not a multiple of the item
length raises `FieldValueError` at the item that would overshoot, before
reading it. -/
theorem listFieldUnpack_not_dvd (k : Nat) (hk : 0 < k) :
    ∀ fuel b file, b < fuel → ¬ k ∣ b →
      listFieldUnpack k fuel b file =
        some (.error (.fieldValueError "Field <list> has invalid length.")) := by
  intro fuel
  induction fuel with
  | zero => intro b file hb _; exact absurd hb (by omega)
  | succ f ih =>
    intro b file hb hdvd
    match b with
    | 0 => exact absurd (dvd_zero k) hdvd
    | b' + 1 =>
      by_cases hlt : b' + 1 < k
      · simp only [listFieldUnpack]
        rw [if_pos hlt]
      · have hk_le : k ≤ b' + 1 := by omega
        have hdvd2 : ¬ k ∣ (b' + 1 - k) := by
          intro hcon
          exact hdvd (by
            have hsum := Nat.dvd_add hcon (dvd_refl k)
            rwa [Nat.sub_add_cancel hk_le] at hsum)
        have hrec := ih (b' + 1 - k) (file.drop k) (by omega) hdvd2
        simp only [listFieldUnpack]
        rw [if_neg hlt, hrec]

/-- Helper: once the remaining budget of `OptionField.unpack` has gone
negative, the `while length:` loop never terminates normally — it consumes
every remaining item of the stream and then fails reading past its end. -/
theorem optionFieldUnpack_negative :
    ∀ (file : List OptItem) (fuel : Nat) (length : Int) (c : Nat),
      length < 0 → file.length < fuel →
      optionFieldUnpack fuel length file c =
        some (.error .endOfStream, c + (file.map OptItem.size).sum) := by
  intro file
  induction file with
  | nil =>
    intro fuel length c hneg hfuel
    match fuel with
    | f + 1 =>
      simp only [optionFieldUnpack]
      rw [if_neg (by omega)]
      simp
  | cons item rest ih =>
    intro fuel length c hneg hfuel
    match fuel with
    | f + 1 =>
      have hrec := ih f (length - item.size) (c + item.size)
        (by have hnn : (0 : Int) ≤ item.size := Int.ofNat_nonneg _; omega)
        (by simpa using Nat.lt_of_succ_lt_succ hfuel)
      simp only [optionFieldUnpack]
      rw [if_neg (by omega), hrec]
      simp [Nat.add_assoc]
      rfl

/-- C1 counterexample: an `OptionField` with a declared budget of 2 bytes over
a stream holding one 4-byte item consumes all 4 bytes — more than the
budget — and fails reading past the stream's end rather than raising
`FieldValueError` at the overshooting item. -/
theorem optionField_overshoot_cex :
    optionFieldUnpack 3 2 [⟨1, 4⟩] 0 = some (.error .endOfStream, 4) ∧
    (4 : Nat) ≠ 2 :=
  ⟨rfl, by decide⟩

/-- C1 (amended): `ListField.unpack` consumes exactly the declared byte
budget — when the item length divides the budget it returns the consecutive
chunks whose concatenation is exactly the first budget bytes, and otherwise
it raises `FieldValueError` at the item that would overshoot the remaining
budget, before consuming it.  `OptionField.unpack`, however, performs no such
check: an item whose size overshoots the positive remaining budget is
consumed in full, the loop continues with a negative budget, consumes the
entire remaining stream, and fails past its end instead of raising
`FieldValueError`. -/
theorem listField_optionField_budget :
    (∀ k fuel b file, 0 < k → b < fuel → k ∣ b →
      ∃ chunks, listFieldUnpack k fuel b file = some (.ok chunks) ∧
        chunks.flatten = file.take b) ∧
    (∀ k fuel b file, 0 < k → b < fuel → ¬ k ∣ b →
      listFieldUnpack k fuel b file =
        some (.error (.fieldValueError "Field <list> has invalid length."))) ∧
    (∀ (b : Int) (item : OptItem) (rest : List OptItem) (c fuel : Nat),
      0 < b → b < item.size → rest.length + 1 < fuel →
      optionFieldUnpack fuel b (item :: rest) c =
        some (.error .endOfStream, c + item.size + (rest.map OptItem.size).sum)) := by
  refine ⟨fun k fuel b file hk hb hdvd => listFieldUnpack_dvd k hk fuel b file hb hdvd,
          fun k fuel b file hk hb hdvd => listFieldUnpack_not_dvd k hk fuel b file hb hdvd,
          ?_⟩
  intro b item rest c fuel hb hover hfuel
  match fuel with
  | f + 1 =>
    have hrec := optionFieldUnpack_negative rest f (b - item.size) (c + item.size)
      (by omega) (by omega)
    simp only [optionFieldUnpack]
    rw [if_neg (by omega), hrec]
    rfl

/-- Witness for the budget behavior: an exact 4-byte budget of 2-byte items,
a 3-byte budget of 2-byte items, and a 2-byte option budget against a stream
of two 4-byte items. -/
theorem listField_optionField_budget_witness :
    (∃ chunks, listFieldUnpack 2 5 4 [1, 2, 3, 4, 5] = some (.ok chunks) ∧
      chunks.flatten = ([1, 2, 3, 4, 5] : List Nat).take 4) ∧
    listFieldUnpack 2 5 3 [1, 2, 3, 4, 5] =
      some (.error (.fieldValueError "Field <list> has invalid length.")) ∧
    optionFieldUnpack 5 2 [⟨1, 4⟩, ⟨2, 4⟩] 0 = some (.error .endOfStream, 8) := by
  refine ⟨listField_optionField_budget.1 2 5 4 _ (by decide) (by decide) (by decide),
          listField_optionField_budget.2.1 2 5 3 _ (by decide) (by decide) (by decide),
          ?_⟩
  have h := listField_optionField_budget.2.2 2 ⟨1, 4⟩ [⟨2, 4⟩] 0 5
    (by decide) (by decide) (by decide)
  simpa using h

end PCAPKit
